import Mathlib

/-!
Verification of the PowerSimData data-access layer
(`powersimdata/data_access/data_access.py`).

The module is shallowly embedded: paths are lists of characters, file
systems are association lists from paths to byte lists, and each method
of `DataAccess` / `LocalDataAccess` / `SSHDataAccess` becomes a state
passing function.  The external shell commands issued by the module
(`ls`, `cp`, `rm`, `mkdir -p`, `sha1sum`, `mv -b`, the `flock` script)
are modelled by their observable effect on those file systems; the
`sha1sum` digest itself is an external tool, so the model is
parameterised over a digest function `sha1 : Bytes → Path`.
-/

namespace PSD

/-- Paths and stream lines are lists of characters. -/
abbrev Path := List Char

/-- File contents are lists of bytes. -/
abbrev Bytes := List Nat

/-- Convert a string literal to a character-list path. -/
def S (s : String) : Path := s.data

/-- Whether a path starts with the posix separator. -/
def startsWithSlash : Path → Bool
  | [] => false
  | c :: _ => c == '/'

/-- Whether a path ends with the posix separator. -/
def endsWithSlash (p : Path) : Bool := startsWithSlash p.reverse

/-- `posixpath.join(a, b)` (also `os.path.join` on the posix hosts the
module targets): if `b` is absolute it wins; otherwise `b` is appended,
inserting a separator unless `a` is empty or already ends with one. -/
def pjoin (a b : Path) : Path :=
  if startsWithSlash b then b
  else if a = [] ∨ endsWithSlash a then a ++ b
  else a ++ '/' :: b

/-- Everything up to and including the last separator of a path
(`p[:p.rfind(sep) + 1]` in `posixpath.dirname`). -/
def takeToLastSlash : Path → Path
  | [] => []
  | c :: cs =>
      if '/' ∈ cs then c :: takeToLastSlash cs
      else if c = '/' then [c] else []

/-- Strip trailing separators (`head.rstrip(sep)`). -/
def rstripSlash (p : Path) : Path := (p.reverse.dropWhile (fun c => c == '/')).reverse

/-- `posixpath.dirname`: take the head up to the last separator and
strip its trailing separators unless it consists only of separators. -/
def dirname (p : Path) : Path :=
  let head := takeToLastSlash p
  if head ≠ [] ∧ ¬ (head.all (fun c => c == '/')) then rstripSlash head else head

/-- ASCII whitespace, as stripped by Python's `str.strip()`. -/
def isWs (c : Char) : Bool :=
  c == ' ' || c == '\t' || c == '\n' || c == '\r' || c == '\x0b' || c == '\x0c'

/-- Python `str.strip()`: drop whitespace from both ends. -/
def pythonStrip (p : Path) : Path :=
  ((p.dropWhile isWs).reverse.dropWhile isWs).reverse

/-- The two-space separator `sha1sum` prints between digest and file name. -/
def sep2 : Path := [' ', ' ']

/-- A file system: an association list from paths to contents; the
first binding of a path shadows later ones. -/
abbrev FS := List (Path × Bytes)

/-- Look a path up in a file system. -/
def fsLookup : FS → Path → Option Bytes
  | [], _ => none
  | e :: rest, p => if e.1 = p then some e.2 else fsLookup rest p

/-- Write a file (shadowing any previous binding). -/
def fsInsert (fs : FS) (p : Path) (v : Bytes) : FS := (p, v) :: fs

/-- Delete a file. -/
def fsErase : FS → Path → FS
  | [], _ => []
  | e :: rest, p => if e.1 = p then fsErase rest p else e :: fsErase rest p

/-- The Python exceptions the module raises, by site. -/
inductive Err where
  /-- `ValueError` from `_check_filename` (the spec's ValidationError). -/
  | valueError
  /-- `FileNotFoundError` from `SSHDataAccess.move_to`. -/
  | fileNotFound
  /-- `OSError(f"{filepath} not found on server")` from `_check_file_exists`. -/
  | osNotFound
  /-- `OSError(f"{filepath} already exists on server")` from `_check_file_exists`. -/
  | osAlreadyExists
  /-- `IOError("Failed to push file - ...")` from `SSHDataAccess.push`. -/
  | ioPushFailed
  /-- `IOError("Could not connect to server, ...")` from the `ssh` property. -/
  | ioConnection
  /-- Python `TypeError` (for example `posixpath.join` applied to `None`). -/
  | typeError
  deriving DecidableEq, Repr

/-- `DataAccess._check_filename`: raise `ValueError` when
`len(os.path.dirname(filename)) != 0`. -/
def checkFilenameErr (filename : Path) : Option Err :=
  if (dirname filename).length ≠ 0 then some .valueError else none

/-- `DataAccess._check_file_exists`: the guard destructures the three
streams of the listing command, discards stdin and stdout, and compares
the number of stderr lines with 0 (`operator.ne` when the file should
exist, `operator.eq` when it should not). -/
def checkFileExistsErr (stdoutLines stderrLines : List Path) (should_exist : Bool) :
    Option Err :=
  if (if should_exist then stderrLines.length ≠ 0 else stderrLines.length = 0) then
    some (if should_exist then .osNotFound else .osAlreadyExists)
  else none

/-- Modelled from the spec: the listing command built by
`CommandBuilder.list` (the helper module is not under `src/`) prints the
path on stdout when it exists and nothing otherwise. -/
def lsStdout (fs : FS) (p : Path) : List Path :=
  match fsLookup fs p with
  | some _ => [p]
  | none => []

/-- Modelled from the spec: the listing command emits a no-such-path
failure on its error stream exactly when the path is absent. -/
def lsStderr (fs : FS) (p : Path) : List Path :=
  match fsLookup fs p with
  | some _ => []
  | none => [S "ls: cannot access: No such file or directory"]

/-! ## The local backend (`LocalDataAccess`)

One machine-local file system holds both the store root (`self.root`,
defaulting to `server_setup.DATA_ROOT_DIR`) and the caller's workspace
(`server_setup.LOCAL_DIR`). -/

/-- State of `LocalDataAccess`: its store root, the workspace root
`server_setup.LOCAL_DIR`, and the machine-local file system. -/
structure LocalState where
  root : Path
  local_dir : Path
  fs : FS
  deriving DecidableEq, Repr

/-- `LocalDataAccess.copy_from`: the body is `pass` — nothing happens
(the store is reachable through a symlink). -/
def Local.copy_from (st : LocalState) (file_name : Path) (from_dir : Option Path) :
    LocalState × Option Err :=
  let _ := file_name
  let _ := from_dir
  (st, none)

/-- `LocalDataAccess.push`: the body is `pass`. -/
def Local.push (st : LocalState) (file_name checksum : Path)
    (change_name_to : Option Path) : LocalState × Option Err :=
  let _ := (file_name, checksum, change_name_to)
  (st, none)

/-- `LocalDataAccess.checksum`: always the placeholder `"dummy_value"`. -/
def Local.checksum (st : LocalState) (relative_path : Path) : Path :=
  let _ := (st, relative_path)
  S "dummy_value"

/-- `LocalDataAccess.move_to`.  Note that in the source `to_dir` has no
default value, and passing `None` reaches
`posixpath.join(self.root, to_dir, file_name)` which raises `TypeError`;
this is modelled by the `none` branch.  The `cp`/`rm` commands issued
through `self.copy`/`self.remove` have their streams discarded, so a
missing source is not detected; `rm` runs unconditionally. -/
def Local.move_to (st : LocalState) (file_name : Path) (to_dir : Option Path)
    (change_name_to : Option Path) : LocalState × Option Err :=
  match checkFilenameErr file_name with
  | some e => (st, some e)
  | none =>
    let src := pjoin st.local_dir file_name
    let fn := change_name_to.getD file_name
    match to_dir with
    | none => (st, some .typeError)
    | some td =>
      let dest := pjoin (pjoin st.root td) fn
      match checkFileExistsErr (lsStdout st.fs dest) (lsStderr st.fs dest) false with
      | some e => (st, some e)
      | none =>
        let fs1 :=
          match fsLookup st.fs src with
          | some content => fsInsert st.fs dest content
          | none => st.fs
        ({ st with fs := fsErase fs1 src }, none)

/-! ## The remote backend (`SSHDataAccess`) -/

/-- State of `SSHDataAccess` seen by the transfer operations: the store
root on the server, the workspace root `server_setup.LOCAL_DIR`, the
caller's local file system and the remote file system.  The operations
below model the behaviour once an SSH session is available; the
connection manager (`ssh` property) is modelled separately. -/
structure SSHState where
  root : Path
  local_root : Path
  localFs : FS
  remoteFs : FS
  deriving DecidableEq, Repr

/-- `SSHDataAccess.move_to`: validate the bare name, require the local
source file, resolve the final remote name, `mkdir -p` the destination
directory (directories are not tracked by the model), require the
destination to be absent, upload through sftp, then remove the local
source. -/
def SSH.move_to (st : SSHState) (file_name : Path) (to_dir change_name_to : Option Path) :
    SSHState × Option Err :=
  match checkFilenameErr file_name with
  | some e => (st, some e)
  | none =>
    let from_path := pjoin st.local_root file_name
    match fsLookup st.localFs from_path with
    | none => (st, some .fileNotFound)
    | some content =>
      let fn := change_name_to.getD file_name
      let td := to_dir.getD []
      let to_path := pjoin (pjoin st.root td) fn
      match checkFileExistsErr (lsStdout st.remoteFs to_path) (lsStderr st.remoteFs to_path)
          false with
      | some e => (st, some e)
      | none =>
          ({ st with
              remoteFs := fsInsert st.remoteFs to_path content
              localFs := fsErase st.localFs from_path }, none)

/-- `SSHDataAccess.copy_from`: validate the bare name, `os.makedirs` the
local destination directory, require the remote source to exist, then
download via sftp to a fresh temporary file which is atomically moved
onto the local destination (the net effect is one local write). -/
def SSH.copy_from (st : SSHState) (file_name : Path) (from_dir : Option Path) :
    SSHState × Option Err :=
  match checkFilenameErr file_name with
  | some e => (st, some e)
  | none =>
    let fd := from_dir.getD []
    let to_dir := pjoin st.local_root fd
    let from_path := pjoin (pjoin st.root fd) file_name
    let to_path := pjoin to_dir file_name
    match checkFileExistsErr (lsStdout st.remoteFs from_path) (lsStderr st.remoteFs from_path)
        true with
    | some e => (st, some e)
    | none =>
      match fsLookup st.remoteFs from_path with
      | none => (st, some .osNotFound)
      | some content =>
          ({ st with localFs := fsInsert st.localFs to_path content }, none)

/-- `SSHDataAccess.checksum`: check the file exists, run
`sha1sum {full_path}` and return `lines[0].strip()` of its stdout —
the whole first line, digest, double space and path. -/
def SSH.checksum (sha1 : Bytes → Path) (st : SSHState) (relative_path : Path) :
    Except Err Path :=
  let full_path := pjoin st.root relative_path
  match checkFileExistsErr (lsStdout st.remoteFs full_path) (lsStderr st.remoteFs full_path)
      true with
  | some e => .error e
  | none =>
    match fsLookup st.remoteFs full_path with
    | none => .error .osNotFound
    | some content =>
      let lines := [sha1 content ++ sep2 ++ full_path ++ ['\n']]
      .ok (pythonStrip (lines.headD []))

/-- `mv {src} {dst} -b`: back the existing destination up under a `~`
suffix, then rename the source over the destination; a missing source
is an error on the stream. -/
def mvBackup (fs : FS) (src dst : Path) : FS × List Path :=
  match fsLookup fs src with
  | none => (fs, [S "mv: cannot stat: No such file or directory"])
  | some content =>
    let fs1 :=
      match fsLookup fs dst with
      | none => fs
      | some old => fsInsert fs (dst ++ ['~']) old
    (fsInsert (fsErase fs1 src) dst content, [])

/-- The lock-guarded verification command of `SSHDataAccess.push`:
under `flock` on the lockfile, capture `curr=$(sha1sum {original})`
(command substitution strips the trailing newline), compare it with the
caller's `prev` checksum, and either `mv {updated} {original} -b` or
echo `CONFLICT_ERROR` to stderr.  A missing original makes `sha1sum`
write to stderr and leaves `curr` empty.  The `[[ $prev == $curr ]]`
test is modelled as string equality (digest tokens and store paths
contain no shell pattern metacharacters); the lockfile only serialises
concurrent pushers and has no modelled file-system effect. -/
def pushVerify (sha1 : Bytes → Path) (fs : FS) (prev original updated lockfile : Path) :
    FS × List Path :=
  let _ := lockfile
  match fsLookup fs original with
  | none =>
    let errs := [S "sha1sum: no such file or directory"]
    if prev = ([] : Path) then
      let r := mvBackup fs updated original
      (r.1, errs ++ r.2)
    else (fs, errs ++ [S "CONFLICT_ERROR"])
  | some origContent =>
    let curr := sha1 origContent ++ sep2 ++ original
    if prev = curr then mvBackup fs updated original
    else (fs, [S "CONFLICT_ERROR"])

/-- `SSHDataAccess.push`: stage the local file on the remote store root
under `{new_name}.temp` via `move_to`, run the lock-guarded
verification command, and raise `IOError` when the command produced any
stderr line. -/
def SSH.push (sha1 : Bytes → Path) (st : SSHState) (file_name checksum : Path)
    (change_name_to : Option Path) : SSHState × Option Err :=
  let new_name := change_name_to.getD file_name
  let backup := new_name ++ S ".temp"
  match SSH.move_to st file_name none (some backup) with
  | (st1, some e) => (st1, some e)
  | (st1, none) =>
    let original := pjoin st1.root new_name
    let updated := pjoin st1.root backup
    let lockfile := pjoin st1.root (S "scenario.lockfile")
    let r := pushVerify sha1 st1.remoteFs checksum original updated lockfile
    let st2 := { st1 with remoteFs := r.1 }
    if r.2.length > 0 then (st2, some .ioPushFailed) else (st2, none)

/-! ## The connection manager (`SSHDataAccess.ssh`) -/

/-- `self._retry_after`: the fixed cool-down, 5 seconds. -/
def retryAfter : Nat := 5

/-- Process-wide state of the remote backend's connection management:
the class-level `SSHDataAccess._last_attempt` timestamp shared by all
instances, and each instance's private `_ssh` session handle. -/
structure SSHProcess where
  lastAttempt : Int
  instances : List (Option Nat)
  deriving DecidableEq, Repr

/-- The message of the `IOError` raised by the `ssh` property:
`f"Could not connect to server, will try again after {self._retry_after} seconds"`. -/
def connMessage (retry_after : Nat) : Path :=
  S "Could not connect to server, will try again after " ++
    Nat.toDigits 10 retry_after ++ S " seconds"

/-- Outcome of one evaluation of the `ssh` property. -/
structure SshOutcome where
  proc : SSHProcess
  result : Except Path Nat
  handshake : Bool
  deriving Repr

/-- The `ssh` property for instance `i` at time `now`.  `connect`
models whether `_setup_server_connection` would succeed now (and with
which session).  When the instance has no cached session: if the
cool-down has elapsed a handshake is attempted — success caches and
returns the session, failure stamps the shared `_last_attempt` and
falls through to the `IOError`; if the cool-down has not elapsed the
same `IOError` is raised with no handshake.  A cached session is
returned unconditionally. -/
def sshGet (p : SSHProcess) (i : Nat) (now : Int) (connect : Option Nat) : SshOutcome :=
  let should_attempt := now - p.lastAttempt > (retryAfter : Int)
  match p.instances.getD i none with
  | none =>
    if should_attempt then
      match connect with
      | some s =>
        { proc := { p with instances := p.instances.set i (some s) }
          result := .ok s
          handshake := true }
      | none =>
        { proc := { p with lastAttempt := now }
          result := .error (connMessage retryAfter)
          handshake := true }
    else
      { proc := p, result := .error (connMessage retryAfter), handshake := false }
  | some s => { proc := p, result := .ok s, handshake := false }

/-! ## Helper lemmas -/

theorem fsLookup_insert (fs : FS) (p q : Path) (v : Bytes) :
    fsLookup (fsInsert fs p v) q = if p = q then some v else fsLookup fs q := rfl

theorem fsLookup_erase (fs : FS) (p q : Path) :
    fsLookup (fsErase fs p) q = if p = q then none else fsLookup fs q := by
  induction fs with
  | nil => by_cases h : p = q <;> simp [h, fsErase, fsLookup]
  | cons e rest ih =>
    by_cases h2 : p = q
    · subst h2
      by_cases h1 : e.1 = p <;> simp [fsErase, fsLookup, h1, ih]
    · by_cases h1 : e.1 = p
      · have h3 : ¬ (e.1 = q) := fun hh => h2 (h1.symm.trans hh)
        simp [fsErase, fsLookup, h1, h2, h3, ih]
      · have h4 : ¬ (q = p) := fun hh => h2 hh.symm
        by_cases h3 : e.1 = q <;> simp [fsErase, fsLookup, h1, h2, h3, h4, ih]

theorem endsWithSlash_append_slash (a : Path) : endsWithSlash (a ++ ['/']) = true := by
  simp [endsWithSlash, startsWithSlash, List.reverse_append]

theorem pjoin_pjoin_nil (a b : Path) : pjoin (pjoin a []) b = pjoin a b := by
  by_cases hb : startsWithSlash b
  · simp [pjoin, hb]
  · by_cases ha : a = []
    · subst ha
      simp [pjoin, hb, startsWithSlash, endsWithSlash]
    · by_cases he : endsWithSlash a
      · have h1 : pjoin a [] = a := by simp [pjoin, startsWithSlash, he]
        rw [h1]
      · have h1 : pjoin a [] = a ++ ['/'] := by
          simp [pjoin, startsWithSlash, ha, he]
        rw [h1]
        have h2 := endsWithSlash_append_slash a
        simp [pjoin, hb, ha, he, h2]

theorem pjoin_ne_append (root nn s : Path) (hs : s ≠ [])
    (hsw : startsWithSlash s = false) : pjoin root nn ≠ pjoin root (nn ++ s) := by
  have hsl : 0 < s.length := List.length_pos.mpr hs
  have hlen : (pjoin root nn).length < (pjoin root (nn ++ s)).length := by
    by_cases h1 : startsWithSlash nn
    · have h2 : startsWithSlash (nn ++ s) = true := by
        cases nn with
        | nil => simp [startsWithSlash] at h1
        | cons c cs => simpa [startsWithSlash] using h1
      simp only [pjoin, h1, h2, if_true]
      simp [List.length_append]
      omega
    · have h2 : startsWithSlash (nn ++ s) = false := by
        cases nn with
        | nil => simpa using hsw
        | cons c cs => simpa [startsWithSlash] using h1
      by_cases h3 : root = [] ∨ endsWithSlash root
      · simp [pjoin, h1, h2, h3, List.length_append]
        omega
      · simp [pjoin, h1, h2, h3, List.length_append]
        omega
  intro h
  rw [h] at hlen
  exact absurd hlen (lt_irrefl _)

theorem takeToLastSlash_eq_nil (p : Path) : takeToLastSlash p = [] ↔ '/' ∉ p := by
  induction p with
  | nil => simp [takeToLastSlash]
  | cons c cs ih =>
    by_cases h1 : '/' ∈ cs
    · simp [takeToLastSlash, h1]
    · by_cases h2 : c = '/'
      · simp [takeToLastSlash, h1, h2]
      · simp [takeToLastSlash, h1, h2, List.mem_cons]
        exact fun hh => h2 hh.symm

theorem dirname_eq_nil (p : Path) : dirname p = [] ↔ takeToLastSlash p = [] := by
  by_cases h : takeToLastSlash p = []
  · simp [dirname, h, rstripSlash]
  · by_cases h2 : (takeToLastSlash p).all (fun c => c == '/')
    · simp [dirname, h, h2]
    · simp only [dirname, h, h2]
      have hne : rstripSlash (takeToLastSlash p) ≠ [] := by
        intro hh
        apply h2
        rw [List.all_eq_true]
        intro x hx
        have : (takeToLastSlash p).reverse.dropWhile (fun c => c == '/') = [] := by
          simpa [rstripSlash] using hh
        rw [List.dropWhile_eq_nil_iff] at this
        exact this x (List.mem_reverse.mpr hx)
      simp [hne, h]

theorem checkFilenameErr_ok_iff (f : Path) : checkFilenameErr f = none ↔ '/' ∉ f := by
  rw [← takeToLastSlash_eq_nil, ← dirname_eq_nil]
  constructor
  · intro h
    by_cases hd : dirname f = []
    · exact hd
    · simp [checkFilenameErr, List.length_eq_zero, hd] at h
  · intro h
    simp [checkFilenameErr, h]

/-- Whether the first path is a leading segment of the second (used to
state whether a file lies under a given workspace root). -/
def leadsWith : Path → Path → Bool
  | [], _ => true
  | _ :: _, [] => false
  | c :: cs, e :: es => c == e && leadsWith cs es

theorem pythonStrip_token (d p : Path) (hd : d ≠ []) (hdw : ∀ c ∈ d, isWs c = false)
    (hp : p ≠ []) (hpw : ∀ c ∈ p, isWs c = false) :
    pythonStrip (d ++ sep2 ++ p ++ ['\n']) = d ++ sep2 ++ p := by
  obtain ⟨d0, dt, hdeq⟩ := List.exists_cons_of_ne_nil hd
  have hprev : p.reverse ≠ [] := by simpa using hp
  obtain ⟨p0, pt, hpeq⟩ := List.exists_cons_of_ne_nil hprev
  have hd0 : isWs d0 = false := hdw d0 (by rw [hdeq]; exact List.mem_cons_self _ _)
  have hp0 : isWs p0 = false := hpw p0 (by
    rw [← List.mem_reverse, hpeq]
    exact List.mem_cons_self _ _)
  have step1 : (d ++ sep2 ++ p ++ ['\n']).dropWhile isWs = d ++ sep2 ++ p ++ ['\n'] := by
    rw [hdeq]
    simp only [List.cons_append, List.dropWhile_cons, hd0]
    simp
  have step2 : (d ++ sep2 ++ p ++ ['\n']).reverse =
      '\n' :: (p.reverse ++ (sep2.reverse ++ d.reverse)) := by
    simp [List.reverse_append, List.append_assoc]
  have step3 : ((d ++ sep2 ++ p ++ ['\n']).reverse).dropWhile isWs =
      p.reverse ++ (sep2.reverse ++ d.reverse) := by
    rw [step2]
    simp only [List.dropWhile_cons]
    have : isWs '\n' = true := by decide
    rw [this]
    simp only [if_true, hpeq, List.cons_append, List.dropWhile_cons, hp0]
    simp
  unfold pythonStrip
  rw [step1, step3]
  simp [List.reverse_append, List.append_assoc]

theorem SSH_move_to_ok (st : SSHState) (f : Path) (td cn : Option Path) (c : Bytes)
    (hbare : checkFilenameErr f = none)
    (hstaged : fsLookup st.localFs (pjoin st.local_root f) = some c)
    (habsent :
      fsLookup st.remoteFs (pjoin (pjoin st.root (td.getD [])) (cn.getD f)) = none) :
    SSH.move_to st f td cn =
      ({ st with
          remoteFs :=
            fsInsert st.remoteFs (pjoin (pjoin st.root (td.getD [])) (cn.getD f)) c
          localFs := fsErase st.localFs (pjoin st.local_root f) }, none) := by
  unfold SSH.move_to
  simp [hbare, hstaged, lsStdout, lsStderr, habsent, checkFileExistsErr]

theorem SSH_move_to_exists (st : SSHState) (f : Path) (td cn : Option Path) (c c2 : Bytes)
    (hbare : checkFilenameErr f = none)
    (hstaged : fsLookup st.localFs (pjoin st.local_root f) = some c)
    (hpresent :
      fsLookup st.remoteFs (pjoin (pjoin st.root (td.getD [])) (cn.getD f)) = some c2) :
    SSH.move_to st f td cn = (st, some .osAlreadyExists) := by
  unfold SSH.move_to
  simp [hbare, hstaged, lsStdout, lsStderr, hpresent, checkFileExistsErr]

theorem SSH_copy_from_ok (st : SSHState) (f : Path) (fd : Option Path) (c : Bytes)
    (hbare : checkFilenameErr f = none)
    (hremote : fsLookup st.remoteFs (pjoin (pjoin st.root (fd.getD [])) f) = some c) :
    SSH.copy_from st f fd =
      ({ st with
          localFs :=
            fsInsert st.localFs (pjoin (pjoin st.local_root (fd.getD [])) f) c }, none) := by
  unfold SSH.copy_from
  simp [hbare, lsStdout, lsStderr, hremote, checkFileExistsErr]

theorem Local_move_to_ok (lst : LocalState) (f td : Path) (cn : Option Path) (c : Bytes)
    (hbare : checkFilenameErr f = none)
    (hstaged : fsLookup lst.fs (pjoin lst.local_dir f) = some c)
    (habsent : fsLookup lst.fs (pjoin (pjoin lst.root td) (cn.getD f)) = none) :
    Local.move_to lst f (some td) cn =
      ({ lst with
          fs := fsErase (fsInsert lst.fs (pjoin (pjoin lst.root td) (cn.getD f)) c)
            (pjoin lst.local_dir f) }, none) := by
  unfold Local.move_to
  simp [hbare, lsStdout, lsStderr, habsent, checkFileExistsErr, hstaged]

theorem Local_move_to_none_dir (lst : LocalState) (f : Path) (cn : Option Path)
    (hbare : checkFilenameErr f = none) :
    Local.move_to lst f none cn = (lst, some .typeError) := by
  unfold Local.move_to
  simp [hbare]

theorem sshGet_cached (p : SSHProcess) (i : Nat) (now : Int) (connect : Option Nat)
    (s : Nat) (h : p.instances.getD i none = some s) :
    sshGet p i now connect = { proc := p, result := .ok s, handshake := false } := by
  unfold sshGet
  rw [h]

theorem sshGet_refused (p : SSHProcess) (i : Nat) (now : Int) (connect : Option Nat)
    (h1 : p.instances.getD i none = none)
    (h2 : ¬ (now - p.lastAttempt > (retryAfter : Int))) :
    sshGet p i now connect =
      { proc := p, result := .error (connMessage retryAfter), handshake := false } := by
  unfold sshGet
  rw [h1]
  simp [h2]

theorem sshGet_attempt_ok (p : SSHProcess) (i : Nat) (now : Int) (s : Nat)
    (h1 : p.instances.getD i none = none)
    (h2 : now - p.lastAttempt > (retryAfter : Int)) :
    sshGet p i now (some s) =
      { proc := { p with instances := p.instances.set i (some s) }
        result := .ok s, handshake := true } := by
  unfold sshGet
  rw [h1]
  simp [h2]

theorem sshGet_attempt_fail (p : SSHProcess) (i : Nat) (now : Int)
    (h1 : p.instances.getD i none = none)
    (h2 : now - p.lastAttempt > (retryAfter : Int)) :
    sshGet p i now none =
      { proc := { p with lastAttempt := now }
        result := .error (connMessage retryAfter), handshake := true } := by
  unfold sshGet
  rw [h1]
  simp [h2]

/-! ## Claim theorems -/

/-- C6: `_check_file_exists` raises the not-found error exactly when the
file should exist and the listing's error stream is non-empty, raises
the already-exists error exactly when the file should not exist and the
error stream is empty, and the decision is a function of the error
stream alone, never of the output stream. -/
theorem C6_check_file_exists (stdoutLines stderrLines : List Path) (should_exist : Bool) :
    (checkFileExistsErr stdoutLines stderrLines should_exist = some .osNotFound ↔
      should_exist = true ∧ stderrLines ≠ []) ∧
    (checkFileExistsErr stdoutLines stderrLines should_exist = some .osAlreadyExists ↔
      should_exist = false ∧ stderrLines = []) ∧
    (∀ otherStdout : List Path,
      checkFileExistsErr otherStdout stderrLines should_exist =
        checkFileExistsErr stdoutLines stderrLines should_exist) := by
  cases should_exist <;> by_cases h : stderrLines = [] <;>
    simp [checkFileExistsErr, h, List.length_eq_zero]

/-- C7: `_check_filename` succeeds exactly on strings without a path
separator and raises the `ValueError` exactly on strings containing
one (a non-empty directory part). -/
theorem C7_check_filename (f : Path) :
    (checkFilenameErr f = none ↔ '/' ∉ f) ∧
    (checkFilenameErr f = some .valueError ↔ '/' ∈ f) := by
  have h := checkFilenameErr_ok_iff f
  have h2 : checkFilenameErr f = some Err.valueError ↔ ¬ (checkFilenameErr f = none) := by
    unfold checkFilenameErr
    split <;> simp
  refine ⟨h, ?_⟩
  rw [h2, h]
  exact not_not

/-- C4 counterexample: instance 1 fails its connection attempt at time
10, stamping the shared clock; at time 12 — within the 5-second
cool-down — instance 0, which holds a cached session, requests a
session and succeeds, so not every request by any instance within the
cool-down fails. -/
theorem C4_counterexample :
    (sshGet ⟨0, [some 7, none]⟩ 1 10 none).result = .error (connMessage retryAfter) ∧
    (sshGet ⟨0, [some 7, none]⟩ 1 10 none).proc.lastAttempt = 10 ∧
    (12 : Int) - (sshGet ⟨0, [some 7, none]⟩ 1 10 none).proc.lastAttempt ≤
      (retryAfter : Int) ∧
    (sshGet (sshGet ⟨0, [some 7, none]⟩ 1 10 none).proc 0 12 none).result = .ok 7 :=
  ⟨rfl, rfl, by decide, rfl⟩

/-- C4 (amended): while an instance holds no cached session, a session
request within the cool-down after the last failed attempt fails with
the connection error, performs no handshake and leaves the process
state — including the shared class-level clock — unchanged; and the
shared clock is never updated by a request that returns a session. -/
theorem C4_cooldown (p : SSHProcess) (i : Nat) (now : Int) (connect : Option Nat) :
    (p.instances.getD i none = none → now - p.lastAttempt ≤ (retryAfter : Int) →
      (sshGet p i now connect).result = .error (connMessage retryAfter) ∧
      (sshGet p i now connect).handshake = false ∧
      (sshGet p i now connect).proc = p) ∧
    (∀ s : Nat, (sshGet p i now connect).result = .ok s →
      (sshGet p i now connect).proc.lastAttempt = p.lastAttempt) := by
  constructor
  · intro h1 h2
    have hS : ¬ (now - p.lastAttempt > (retryAfter : Int)) := not_lt.mpr h2
    rw [sshGet_refused p i now connect h1 hS]
    exact ⟨rfl, rfl, rfl⟩
  · intro s hs
    cases hI : p.instances.getD i none with
    | none =>
      by_cases hS : now - p.lastAttempt > (retryAfter : Int)
      · cases connect with
        | some t => rw [sshGet_attempt_ok p i now t hI hS]
        | none =>
          rw [sshGet_attempt_fail p i now hI hS] at hs
          cases hs
      · rw [sshGet_refused p i now connect hI hS] at hs
        cases hs
    | some t => rw [sshGet_cached p i now connect t hI]

/-- C4 witness: a concrete disconnected instance inside the cool-down
is refused without a handshake even though a handshake would succeed. -/
theorem C4_cooldown_witness :
    (sshGet ⟨10, [none]⟩ 0 12 (some 99)).result = .error (connMessage retryAfter) ∧
    (sshGet ⟨10, [none]⟩ 0 12 (some 99)).handshake = false ∧
    (sshGet ⟨10, [none]⟩ 0 12 (some 99)).proc = ⟨10, [none]⟩ :=
  (C4_cooldown ⟨10, [none]⟩ 0 12 (some 99)).1 rfl (by decide)

/-- C5 counterexample: with the last failure at time 10 and a request
at time 12 the remaining wait is 3 seconds, but the raised message is
the fixed one naming 5 seconds — it contains no digit 3, and the
message at time 14 (remaining wait 1 second) is identical, so the
message cannot be naming the remaining wait. -/
theorem C5_counterexample :
    (sshGet ⟨10, [none]⟩ 0 12 none).result = .error (connMessage retryAfter) ∧
    (retryAfter : Int) - ((12 : Int) - 10) = 3 ∧
    '3' ∉ connMessage retryAfter ∧
    (sshGet ⟨10, [none]⟩ 0 14 none).result = (sshGet ⟨10, [none]⟩ 0 12 none).result :=
  ⟨rfl, by decide, by decide, rfl⟩

/-- C5 (amended): a session request while disconnected and within the
cool-down raises the connection error with a fixed message naming the
configured retry interval `_retry_after` (5 seconds), independent of
how much of the cool-down has already elapsed. -/
theorem C5_conn_message (p p2 : SSHProcess) (i i2 : Nat) (now now2 : Int)
    (connect connect2 : Option Nat)
    (h1 : p.instances.getD i none = none)
    (h2 : now - p.lastAttempt ≤ (retryAfter : Int))
    (h3 : p2.instances.getD i2 none = none)
    (h4 : now2 - p2.lastAttempt ≤ (retryAfter : Int)) :
    (sshGet p i now connect).result = .error (connMessage retryAfter) ∧
    (sshGet p i now connect).result = (sshGet p2 i2 now2 connect2).result ∧
    connMessage retryAfter =
      S "Could not connect to server, will try again after 5 seconds" := by
  have hS : ¬ (now - p.lastAttempt > (retryAfter : Int)) := not_lt.mpr h2
  have hS2 : ¬ (now2 - p2.lastAttempt > (retryAfter : Int)) := not_lt.mpr h4
  rw [sshGet_refused p i now connect h1 hS, sshGet_refused p2 i2 now2 connect2 h3 hS2]
  exact ⟨rfl, rfl, by decide⟩

/-- C3: a successful remote `move_to` followed — once the staging file
exists again — by a second call with the same destination and no rename
fails with the already-exists error, leaves the state untouched, keeps
the first upload on the remote store and keeps the local source. -/
theorem C3_move_to_twice (st : SSHState) (f d : Path) (c c2 : Bytes)
    (hbare : checkFilenameErr f = none)
    (hstaged : fsLookup st.localFs (pjoin st.local_root f) = some c)
    (habsent : fsLookup st.remoteFs (pjoin (pjoin st.root d) f) = none) :
    (SSH.move_to st f (some d) none).2 = none ∧
    SSH.move_to
        { (SSH.move_to st f (some d) none).1 with
            localFs := fsInsert (SSH.move_to st f (some d) none).1.localFs
              (pjoin st.local_root f) c2 }
        f (some d) none =
      ({ (SSH.move_to st f (some d) none).1 with
          localFs := fsInsert (SSH.move_to st f (some d) none).1.localFs
            (pjoin st.local_root f) c2 }, some .osAlreadyExists) ∧
    fsLookup (SSH.move_to st f (some d) none).1.remoteFs (pjoin (pjoin st.root d) f) =
      some c ∧
    fsLookup
      (fsInsert (SSH.move_to st f (some d) none).1.localFs (pjoin st.local_root f) c2)
      (pjoin st.local_root f) = some c2 := by
  have h1 := SSH_move_to_ok st f (some d) none c hbare hstaged habsent
  simp only [Option.getD_some, Option.getD_none] at h1
  simp only [h1]
  refine ⟨trivial, ?_, ?_, ?_⟩
  · exact SSH_move_to_exists _ f (some d) none c2 c hbare
      (by simp [fsLookup_insert])
      (by simp [fsLookup_insert])
  · simp [fsLookup_insert]
  · simp [fsLookup_insert]

/-- C3 witness: a concrete double `move_to` on the remote backend. -/
theorem C3_move_to_twice_witness :
    (SSH.move_to ⟨S "/store", S "/home/u", [(S "/home/u/f", [1])], []⟩
      (S "f") (some (S "d")) none).2 = none ∧
    SSH.move_to
        { (SSH.move_to ⟨S "/store", S "/home/u", [(S "/home/u/f", [1])], []⟩
            (S "f") (some (S "d")) none).1 with
            localFs := fsInsert
              (SSH.move_to ⟨S "/store", S "/home/u", [(S "/home/u/f", [1])], []⟩
                (S "f") (some (S "d")) none).1.localFs
              (pjoin (S "/home/u") (S "f")) [2] }
        (S "f") (some (S "d")) none =
      ({ (SSH.move_to ⟨S "/store", S "/home/u", [(S "/home/u/f", [1])], []⟩
            (S "f") (some (S "d")) none).1 with
          localFs := fsInsert
            (SSH.move_to ⟨S "/store", S "/home/u", [(S "/home/u/f", [1])], []⟩
              (S "f") (some (S "d")) none).1.localFs
            (pjoin (S "/home/u") (S "f")) [2] }, some .osAlreadyExists) ∧
    fsLookup (SSH.move_to ⟨S "/store", S "/home/u", [(S "/home/u/f", [1])], []⟩
        (S "f") (some (S "d")) none).1.remoteFs
      (pjoin (pjoin (S "/store") (S "d")) (S "f")) = some [1] ∧
    fsLookup
      (fsInsert (SSH.move_to ⟨S "/store", S "/home/u", [(S "/home/u/f", [1])], []⟩
          (S "f") (some (S "d")) none).1.localFs (pjoin (S "/home/u") (S "f")) [2])
      (pjoin (S "/home/u") (S "f")) = some [2] :=
  C3_move_to_twice ⟨S "/store", S "/home/u", [(S "/home/u/f", [1])], []⟩
    (S "f") (S "d") [1] [2] (by decide) (by decide) (by decide)

/-- C9 counterexample: calling the local backend's `move_to` with
`to_dir = None` raises `TypeError` even though the staged file is
valid — the claim's "succeeds for a valid staged file on both
implementations" fails on `LocalDataAccess`. -/
theorem C9_counterexample :
    Local.move_to ⟨S "/store", S "/home/u", [(S "/home/u/f", [1])]⟩ (S "f") none none =
      (⟨S "/store", S "/home/u", [(S "/home/u/f", [1])]⟩, some .typeError) ∧
    fsLookup [(S "/home/u/f", [1])] (pjoin (S "/home/u") (S "f")) = some [1] := by
  exact ⟨by decide, by decide⟩

/-- C9 (amended): only the remote backend's `move_to` accepts an
omitted `to_dir`, resolving the destination to the store root and
succeeding for a valid staged file; the local backend's `to_dir` has no
default, and a `None` value fails with `TypeError`. -/
theorem C9_move_to_default (st : SSHState) (f : Path) (c : Bytes)
    (lst : LocalState) (g : Path) (cn : Option Path)
    (hbare : checkFilenameErr f = none)
    (hstaged : fsLookup st.localFs (pjoin st.local_root f) = some c)
    (habsent : fsLookup st.remoteFs (pjoin st.root f) = none)
    (hg : checkFilenameErr g = none) :
    SSH.move_to st f none none =
      ({ st with
          remoteFs := fsInsert st.remoteFs (pjoin st.root f) c
          localFs := fsErase st.localFs (pjoin st.local_root f) }, none) ∧
    Local.move_to lst g none cn = (lst, some .typeError) := by
  constructor
  · have h1 := SSH_move_to_ok st f none none c hbare hstaged
      (by simpa [pjoin_pjoin_nil] using habsent)
    simp only [Option.getD_none, pjoin_pjoin_nil] at h1
    exact h1
  · exact Local_move_to_none_dir lst g cn hg

/-- C9 witness: concrete instances of both halves. -/
theorem C9_move_to_default_witness :
    SSH.move_to ⟨S "/store", S "/home/u", [(S "/home/u/f", [1])], []⟩ (S "f") none none =
      ({ (⟨S "/store", S "/home/u", [(S "/home/u/f", [1])], []⟩ : SSHState) with
          remoteFs := fsInsert [] (pjoin (S "/store") (S "f")) [1]
          localFs := fsErase [(S "/home/u/f", [1])] (pjoin (S "/home/u") (S "f")) },
        none) ∧
    Local.move_to ⟨S "/store", S "/home/u", []⟩ (S "g") none none =
      (⟨S "/store", S "/home/u", []⟩, some .typeError) :=
  C9_move_to_default ⟨S "/store", S "/home/u", [(S "/home/u/f", [1])], []⟩ (S "f") [1]
    ⟨S "/store", S "/home/u", []⟩ (S "g") none (by decide) (by decide) (by decide)
    (by decide)

/-- C8 counterexample: on the local backend, after `move_to` then
`copy_from` the staged bytes live only at the store path — `copy_from`
is a no-op and the staging copy was removed — so no file with the
original bytes exists anywhere under the caller's workspace root
(the spec's Local Staging Root). -/
theorem C8_counterexample :
    (Local.move_to ⟨S "/store", S "/home/u", [(S "/home/u/f", [1, 2, 3])]⟩
      (S "f") (some (S "d")) none).2 = none ∧
    (Local.copy_from
        (Local.move_to ⟨S "/store", S "/home/u", [(S "/home/u/f", [1, 2, 3])]⟩
          (S "f") (some (S "d")) none).1
        (S "f") (some (S "d"))).1.fs = [(S "/store/d/f", [1, 2, 3])] ∧
    fsLookup
      (Local.copy_from
        (Local.move_to ⟨S "/store", S "/home/u", [(S "/home/u/f", [1, 2, 3])]⟩
          (S "f") (some (S "d")) none).1
        (S "f") (some (S "d"))).1.fs (S "/home/u/f") = none ∧
    leadsWith (S "/home/u") (S "/store/d/f") = false := by
  exact ⟨by decide, by decide, by decide, by decide⟩

/-- C8 (amended): on the remote backend `move_to` then `copy_from`
round-trips the staged bytes unchanged into the caller's workspace; on
the local backend `copy_from` is a no-op and the bytes persist
unchanged at the locally accessible store path, with the staging copy
gone. -/
theorem C8_roundtrip (st : SSHState) (f d : Path) (c : Bytes)
    (lst : LocalState) (lc : Bytes)
    (hbare : checkFilenameErr f = none)
    (hstaged : fsLookup st.localFs (pjoin st.local_root f) = some c)
    (habsent : fsLookup st.remoteFs (pjoin (pjoin st.root d) f) = none)
    (hlstaged : fsLookup lst.fs (pjoin lst.local_dir f) = some lc)
    (hlabsent : fsLookup lst.fs (pjoin (pjoin lst.root d) f) = none)
    (hlne : pjoin (pjoin lst.root d) f ≠ pjoin lst.local_dir f) :
    ((SSH.move_to st f (some d) none).2 = none ∧
     (SSH.copy_from (SSH.move_to st f (some d) none).1 f (some d)).2 = none ∧
     fsLookup (SSH.copy_from (SSH.move_to st f (some d) none).1 f (some d)).1.localFs
       (pjoin (pjoin st.local_root d) f) = some c) ∧
    ((Local.move_to lst f (some d) none).2 = none ∧
     Local.copy_from (Local.move_to lst f (some d) none).1 f (some d) =
       ((Local.move_to lst f (some d) none).1, none) ∧
     fsLookup (Local.move_to lst f (some d) none).1.fs (pjoin (pjoin lst.root d) f) =
       some lc ∧
     fsLookup (Local.move_to lst f (some d) none).1.fs (pjoin lst.local_dir f) =
       none) := by
  have h1 := SSH_move_to_ok st f (some d) none c hbare hstaged habsent
  simp only [Option.getD_some, Option.getD_none] at h1
  have hl1 := Local_move_to_ok lst f d none lc hbare hlstaged hlabsent
  simp only [Option.getD_none] at hl1
  constructor
  · simp only [h1]
    have h2 := SSH_copy_from_ok
      { st with
          remoteFs := fsInsert st.remoteFs (pjoin (pjoin st.root d) f) c
          localFs := fsErase st.localFs (pjoin st.local_root f) }
      f (some d) c hbare (by simp [fsLookup_insert])
    simp only [Option.getD_some] at h2
    simp only [h2]
    exact ⟨by trivial, by trivial, by simp [fsLookup_insert]⟩
  · simp only [hl1]
    refine ⟨by trivial, by trivial, ?_, ?_⟩
    · rw [fsLookup_erase, if_neg (fun hh => hlne hh.symm), fsLookup_insert, if_pos rfl]
    · rw [fsLookup_erase, if_pos rfl]

/-- C8 witness: a concrete round trip on both backends. -/
theorem C8_roundtrip_witness :
    ((SSH.move_to ⟨S "/store", S "/home/u", [(S "/home/u/f", [1, 2])], []⟩
        (S "f") (some (S "d")) none).2 = none ∧
     (SSH.copy_from (SSH.move_to ⟨S "/store", S "/home/u", [(S "/home/u/f", [1, 2])], []⟩
         (S "f") (some (S "d")) none).1 (S "f") (some (S "d"))).2 = none ∧
     fsLookup (SSH.copy_from
         (SSH.move_to ⟨S "/store", S "/home/u", [(S "/home/u/f", [1, 2])], []⟩
           (S "f") (some (S "d")) none).1 (S "f") (some (S "d"))).1.localFs
       (pjoin (pjoin (S "/home/u") (S "d")) (S "f")) = some [1, 2]) ∧
    ((Local.move_to ⟨S "/store", S "/home/u", [(S "/home/u/f", [1, 2])]⟩
        (S "f") (some (S "d")) none).2 = none ∧
     Local.copy_from (Local.move_to ⟨S "/store", S "/home/u", [(S "/home/u/f", [1, 2])]⟩
         (S "f") (some (S "d")) none).1 (S "f") (some (S "d")) =
       ((Local.move_to ⟨S "/store", S "/home/u", [(S "/home/u/f", [1, 2])]⟩
           (S "f") (some (S "d")) none).1, none) ∧
     fsLookup (Local.move_to ⟨S "/store", S "/home/u", [(S "/home/u/f", [1, 2])]⟩
         (S "f") (some (S "d")) none).1.fs
       (pjoin (pjoin (S "/store") (S "d")) (S "f")) = some [1, 2] ∧
     fsLookup (Local.move_to ⟨S "/store", S "/home/u", [(S "/home/u/f", [1, 2])]⟩
         (S "f") (some (S "d")) none).1.fs (pjoin (S "/home/u") (S "f")) = none) :=
  C8_roundtrip ⟨S "/store", S "/home/u", [(S "/home/u/f", [1, 2])], []⟩ (S "f") (S "d")
    [1, 2] ⟨S "/store", S "/home/u", [(S "/home/u/f", [1, 2])]⟩ [1, 2] (by decide)
    (by decide) (by decide) (by decide) (by decide) (by decide)

theorem SSH_checksum_eq (sha1 : Bytes → Path) (st : SSHState) (rel : Path) (c : Bytes)
    (hlen : ∀ b, (sha1 b).length = 40)
    (hws : ∀ b, ∀ ch ∈ sha1 b, isWs ch = false)
    (hne : pjoin st.root rel ≠ [])
    (hpw : ∀ ch ∈ pjoin st.root rel, isWs ch = false)
    (hfile : fsLookup st.remoteFs (pjoin st.root rel) = some c) :
    SSH.checksum sha1 st rel = .ok (sha1 c ++ sep2 ++ pjoin st.root rel) := by
  have hdne : sha1 c ≠ [] := by
    intro hh
    have h40 := hlen c
    rw [hh] at h40
    simp at h40
  unfold SSH.checksum
  simp only [lsStdout, lsStderr, hfile, checkFileExistsErr]
  simp only [List.length_nil, List.headD]
  simp
  simpa [List.append_assoc] using
    pythonStrip_token (sha1 c) (pjoin st.root rel) hdne (hws c) hne hpw

/-- C5 witness: two concrete requests with different elapsed times get
the same fixed message naming the full interval. -/
theorem C5_conn_message_witness :
    (sshGet ⟨10, [none]⟩ 0 12 none).result = .error (connMessage retryAfter) ∧
    (sshGet ⟨10, [none]⟩ 0 12 none).result = (sshGet ⟨10, [none]⟩ 0 14 none).result ∧
    connMessage retryAfter =
      S "Could not connect to server, will try again after 5 seconds" :=
  C5_conn_message ⟨10, [none]⟩ ⟨10, [none]⟩ 0 0 12 14 none none rfl (by decide) rfl
    (by decide)

/-- C1: when the current digest token of the remote file at the final
name differs from the supplied checksum, `push` raises the conflict
`IOError`, the remote file at the final name keeps its previous
content, and the staged `{final_name}.temp` file remains present on
the remote store root. -/
theorem C1_push_conflict (sha1 : Bytes → Path) (st : SSHState)
    (file_name checksum : Path) (change_name_to : Option Path) (oc nc : Bytes)
    (hbare : checkFilenameErr file_name = none)
    (hstaged : fsLookup st.localFs (pjoin st.local_root file_name) = some nc)
    (htemp : fsLookup st.remoteFs
      (pjoin st.root (change_name_to.getD file_name ++ S ".temp")) = none)
    (horig : fsLookup st.remoteFs (pjoin st.root (change_name_to.getD file_name)) =
      some oc)
    (hneq : checksum ≠
      sha1 oc ++ sep2 ++ pjoin st.root (change_name_to.getD file_name)) :
    (SSH.push sha1 st file_name checksum change_name_to).2 = some .ioPushFailed ∧
    fsLookup (SSH.push sha1 st file_name checksum change_name_to).1.remoteFs
      (pjoin st.root (change_name_to.getD file_name)) = some oc ∧
    fsLookup (SSH.push sha1 st file_name checksum change_name_to).1.remoteFs
      (pjoin st.root (change_name_to.getD file_name ++ S ".temp")) = some nc := by
  obtain ⟨nn, hnn⟩ : ∃ nn, change_name_to.getD file_name = nn := ⟨_, rfl⟩
  rw [hnn] at htemp horig hneq ⊢
  have hne : pjoin st.root nn ≠ pjoin st.root (nn ++ S ".temp") :=
    pjoin_ne_append st.root nn (S ".temp") (by decide) (by decide)
  have hmv := SSH_move_to_ok st file_name none (some (nn ++ S ".temp")) nc hbare hstaged
    (by simpa [pjoin_pjoin_nil] using htemp)
  simp only [Option.getD_none, Option.getD_some, pjoin_pjoin_nil] at hmv
  have hlook :
      fsLookup (fsInsert st.remoteFs (pjoin st.root (nn ++ S ".temp")) nc)
        (pjoin st.root nn) = some oc := by
    rw [fsLookup_insert, if_neg (fun hh => hne hh.symm)]
    exact horig
  unfold SSH.push
  rw [hnn]
  simp only [hmv]
  unfold pushVerify
  simp only [hlook]
  rw [if_neg hneq]
  have hgt : ([S "CONFLICT_ERROR"] : List Path).length > 0 := by decide
  rw [if_pos hgt]
  refine ⟨rfl, hlook, ?_⟩
  rw [fsLookup_insert, if_pos rfl]

/-- C1 witness: a concrete conflicting push. -/
theorem C1_push_conflict_witness :
    (SSH.push (fun _ => List.replicate 40 'a')
      ⟨S "/store", S "/home/u", [(S "/home/u/f", [9])], [(S "/store/f", [1])]⟩
      (S "f") (S "stale") none).2 = some .ioPushFailed ∧
    fsLookup (SSH.push (fun _ => List.replicate 40 'a')
        ⟨S "/store", S "/home/u", [(S "/home/u/f", [9])], [(S "/store/f", [1])]⟩
        (S "f") (S "stale") none).1.remoteFs
      (pjoin (S "/store") ((none : Option Path).getD (S "f"))) = some [1] ∧
    fsLookup (SSH.push (fun _ => List.replicate 40 'a')
        ⟨S "/store", S "/home/u", [(S "/home/u/f", [9])], [(S "/store/f", [1])]⟩
        (S "f") (S "stale") none).1.remoteFs
      (pjoin (S "/store") ((none : Option Path).getD (S "f") ++ S ".temp")) =
        some [9] :=
  C1_push_conflict (fun _ => List.replicate 40 'a')
    ⟨S "/store", S "/home/u", [(S "/home/u/f", [9])], [(S "/store/f", [1])]⟩
    (S "f") (S "stale") none [1] [9] (by decide) (by decide) (by decide) (by decide)
    (by decide)

/-- C2: when the current digest token of the remote file at the final
name equals the supplied checksum, `push` succeeds, the remote file at
the final name now holds the bytes of the previously staged local
file, no `{final_name}.temp` file remains on the remote store, and the
local staging copy was removed by the `move_to` staging step. -/
theorem C2_push_success (sha1 : Bytes → Path) (st : SSHState)
    (file_name : Path) (change_name_to : Option Path) (oc nc : Bytes)
    (hbare : checkFilenameErr file_name = none)
    (hstaged : fsLookup st.localFs (pjoin st.local_root file_name) = some nc)
    (htemp : fsLookup st.remoteFs
      (pjoin st.root (change_name_to.getD file_name ++ S ".temp")) = none)
    (horig : fsLookup st.remoteFs (pjoin st.root (change_name_to.getD file_name)) =
      some oc) :
    (SSH.push sha1 st file_name
        (sha1 oc ++ sep2 ++ pjoin st.root (change_name_to.getD file_name))
        change_name_to).2 = none ∧
    fsLookup (SSH.push sha1 st file_name
        (sha1 oc ++ sep2 ++ pjoin st.root (change_name_to.getD file_name))
        change_name_to).1.remoteFs
      (pjoin st.root (change_name_to.getD file_name)) = some nc ∧
    fsLookup (SSH.push sha1 st file_name
        (sha1 oc ++ sep2 ++ pjoin st.root (change_name_to.getD file_name))
        change_name_to).1.remoteFs
      (pjoin st.root (change_name_to.getD file_name ++ S ".temp")) = none ∧
    fsLookup (SSH.push sha1 st file_name
        (sha1 oc ++ sep2 ++ pjoin st.root (change_name_to.getD file_name))
        change_name_to).1.localFs (pjoin st.local_root file_name) = none := by
  obtain ⟨nn, hnn⟩ : ∃ nn, change_name_to.getD file_name = nn := ⟨_, rfl⟩
  rw [hnn] at htemp horig ⊢
  have hne : pjoin st.root nn ≠ pjoin st.root (nn ++ S ".temp") :=
    pjoin_ne_append st.root nn (S ".temp") (by decide) (by decide)
  have hmv := SSH_move_to_ok st file_name none (some (nn ++ S ".temp")) nc hbare hstaged
    (by simpa [pjoin_pjoin_nil] using htemp)
  simp only [Option.getD_none, Option.getD_some, pjoin_pjoin_nil] at hmv
  have hlook :
      fsLookup (fsInsert st.remoteFs (pjoin st.root (nn ++ S ".temp")) nc)
        (pjoin st.root nn) = some oc := by
    rw [fsLookup_insert, if_neg (fun hh => hne hh.symm)]
    exact horig
  have hup :
      fsLookup (fsInsert st.remoteFs (pjoin st.root (nn ++ S ".temp")) nc)
        (pjoin st.root (nn ++ S ".temp")) = some nc := by
    rw [fsLookup_insert, if_pos rfl]
  unfold SSH.push
  rw [hnn]
  simp only [hmv]
  unfold pushVerify
  simp only [hlook, if_true]
  unfold mvBackup
  simp only [hup, hlook]
  have hng : ¬ (([] : List Path).length > 0) := by decide
  rw [if_neg hng]
  refine ⟨rfl, ?_, ?_, ?_⟩
  · rw [fsLookup_insert, if_pos rfl]
  · rw [fsLookup_insert, if_neg hne, fsLookup_erase, if_pos rfl]
  · rw [fsLookup_erase, if_pos rfl]

/-- C2 witness: a concrete successful push. -/
theorem C2_push_success_witness :
    (SSH.push (fun _ => List.replicate 40 'a')
        ⟨S "/store", S "/home/u", [(S "/home/u/f", [9])], [(S "/store/f", [1])]⟩
        (S "f")
        ((fun (_ : Bytes) => List.replicate 40 'a') [1] ++ sep2 ++
          pjoin (S "/store") ((none : Option Path).getD (S "f")))
        none).2 = none ∧
    fsLookup (SSH.push (fun _ => List.replicate 40 'a')
        ⟨S "/store", S "/home/u", [(S "/home/u/f", [9])], [(S "/store/f", [1])]⟩
        (S "f")
        ((fun (_ : Bytes) => List.replicate 40 'a') [1] ++ sep2 ++
          pjoin (S "/store") ((none : Option Path).getD (S "f")))
        none).1.remoteFs
      (pjoin (S "/store") ((none : Option Path).getD (S "f"))) = some [9] ∧
    fsLookup (SSH.push (fun _ => List.replicate 40 'a')
        ⟨S "/store", S "/home/u", [(S "/home/u/f", [9])], [(S "/store/f", [1])]⟩
        (S "f")
        ((fun (_ : Bytes) => List.replicate 40 'a') [1] ++ sep2 ++
          pjoin (S "/store") ((none : Option Path).getD (S "f")))
        none).1.remoteFs
      (pjoin (S "/store") ((none : Option Path).getD (S "f") ++ S ".temp")) = none ∧
    fsLookup (SSH.push (fun _ => List.replicate 40 'a')
        ⟨S "/store", S "/home/u", [(S "/home/u/f", [9])], [(S "/store/f", [1])]⟩
        (S "f")
        ((fun (_ : Bytes) => List.replicate 40 'a') [1] ++ sep2 ++
          pjoin (S "/store") ((none : Option Path).getD (S "f")))
        none).1.localFs (pjoin (S "/home/u") (S "f")) = none :=
  C2_push_success (fun _ => List.replicate 40 'a')
    ⟨S "/store", S "/home/u", [(S "/home/u/f", [9])], [(S "/store/f", [1])]⟩
    (S "f") none [1] [9] (by decide) (by decide) (by decide) (by decide)

/-- C10: the remote `checksum` token is the stripped first line of the
`sha1sum` output — digest, double space, and the full store path — so
files with identical content at different store paths yield different
tokens, and the lock-guarded comparison inside `push` can only succeed
when the supplied token was computed over exactly the full path that
`push` verifies as its final name. -/
theorem C10_checksum_token (sha1 : Bytes → Path) (st st2 : SSHState) (rel rel2 : Path)
    (c c2 : Bytes)
    (hlen : ∀ b, (sha1 b).length = 40)
    (hws : ∀ b, ∀ ch ∈ sha1 b, isWs ch = false)
    (hne : pjoin st.root rel ≠ [])
    (hpw : ∀ ch ∈ pjoin st.root rel, isWs ch = false)
    (hfile : fsLookup st.remoteFs (pjoin st.root rel) = some c)
    (hne2 : pjoin st2.root rel2 ≠ [])
    (hpw2 : ∀ ch ∈ pjoin st2.root rel2, isWs ch = false)
    (hfile2 : fsLookup st2.remoteFs (pjoin st2.root rel2) = some c2) :
    SSH.checksum sha1 st rel = .ok (sha1 c ++ sep2 ++ pjoin st.root rel) ∧
    (SSH.checksum sha1 st rel = SSH.checksum sha1 st2 rel2 →
      pjoin st.root rel = pjoin st2.root rel2) ∧
    (∀ (fs : FS) (oc : Bytes) (original updated lockfile : Path),
      fsLookup fs original = some oc →
      (pushVerify sha1 fs (sha1 c ++ sep2 ++ pjoin st.root rel)
        original updated lockfile).2 = [] →
      pjoin st.root rel = original) := by
  have hA := SSH_checksum_eq sha1 st rel c hlen hws hne hpw hfile
  have hB := SSH_checksum_eq sha1 st2 rel2 c2 hlen hws hne2 hpw2 hfile2
  refine ⟨hA, ?_, ?_⟩
  · intro h
    rw [hA, hB] at h
    have h1 : sha1 c ++ sep2 ++ pjoin st.root rel =
        sha1 c2 ++ sep2 ++ pjoin st2.root rel2 := by
      simpa using h
    have hL : (sha1 c ++ sep2).length = (sha1 c2 ++ sep2).length := by
      simp [List.length_append, hlen c, hlen c2]
    have h2 : (sha1 c ++ sep2) ++ pjoin st.root rel =
        (sha1 c2 ++ sep2) ++ pjoin st2.root rel2 := by
      simpa [List.append_assoc] using h1
    exact (List.append_inj h2 hL).2
  · intro fs oc original updated lockfile hfs hsucc
    by_cases hpc : sha1 c ++ sep2 ++ pjoin st.root rel = sha1 oc ++ sep2 ++ original
    · have hL : (sha1 c ++ sep2).length = (sha1 oc ++ sep2).length := by
        simp [List.length_append, hlen c, hlen oc]
      have h2 : (sha1 c ++ sep2) ++ pjoin st.root rel = (sha1 oc ++ sep2) ++ original := by
        simpa [List.append_assoc] using hpc
      exact (List.append_inj h2 hL).2
    · exfalso
      unfold pushVerify at hsucc
      simp only [hfs] at hsucc
      rw [if_neg hpc] at hsucc
      simp at hsucc

/-- C10 witness: two concrete files with the same content at different
store paths get different tokens, each containing its full path. -/
theorem C10_checksum_token_witness :
    SSH.checksum (fun _ => List.replicate 40 'a')
        ⟨S "/store", S "/home/u", [], [(S "/store/f", [1])]⟩ (S "f") =
      .ok (List.replicate 40 'a' ++ sep2 ++ pjoin (S "/store") (S "f")) ∧
    (SSH.checksum (fun _ => List.replicate 40 'a')
        ⟨S "/store", S "/home/u", [], [(S "/store/f", [1])]⟩ (S "f") =
      SSH.checksum (fun _ => List.replicate 40 'a')
        ⟨S "/store", S "/home/u", [], [(S "/store/g", [1])]⟩ (S "g") →
      pjoin (S "/store") (S "f") = pjoin (S "/store") (S "g")) :=
  have h := C10_checksum_token (fun _ => List.replicate 40 'a')
    ⟨S "/store", S "/home/u", [], [(S "/store/f", [1])]⟩
    ⟨S "/store", S "/home/u", [], [(S "/store/g", [1])]⟩ (S "f") (S "g") [1] [1]
    (fun b => by simp)
    (fun b ch hch => by rw [List.eq_of_mem_replicate hch]; decide)
    (by decide) (by decide) (by decide) (by decide) (by decide) (by decide)
  ⟨h.1, h.2.1⟩

end PSD
